import Mathlib

/-!
Verification of the paste-dialog logic of
`src/web/src/pages/desktop/menu/keyboard/paste.tsx` (NanoKVM-Pro web console).

The file embeds the two pure functions of that module —
`translateRuToEnWithPunctuation` and `isValidForLanguage` — and the
`submit` handler of the `Paste` component as Lean definitions, and proves
the specified properties about them.

Strings are Lean `String`s; a JavaScript string iterated with
`Array.from` / `for..of` yields Unicode code points, which correspond to
the `Char` entries of `String.data`.
-/

namespace Paste

/-- Models JavaScript `String.prototype.toLowerCase` on a single code
point, restricted to the alphabets this module touches: ASCII Latin
letters and the Cyrillic letters of the Russian alphabet (А-Я → а-я,
Ё → ё).  Every other character is returned unchanged, which agrees with
JavaScript on the whole domain the maps below can match. -/
def jsToLower (c : Char) : Char :=
  if 0x41 ≤ c.toNat ∧ c.toNat ≤ 0x5a then Char.ofNat (c.toNat + 0x20)
  else if 0x410 ≤ c.toNat ∧ c.toNat ≤ 0x42f then Char.ofNat (c.toNat + 0x20)
  else if c.toNat = 0x401 then Char.ofNat 0x451
  else c

/-- Models JavaScript `String.prototype.toUpperCase` on a single code
point, restricted in the same way as `jsToLower`. -/
def jsToUpper (c : Char) : Char :=
  if 0x61 ≤ c.toNat ∧ c.toNat ≤ 0x7a then Char.ofNat (c.toNat - 0x20)
  else if 0x430 ≤ c.toNat ∧ c.toNat ≤ 0x44f then Char.ofNat (c.toNat - 0x20)
  else if c.toNat = 0x451 then Char.ofNat 0x401
  else c

/-- Plain ASCII upper-casing of a single character (a-z → A-Z, everything
else unchanged); used to state properties about the Latin output side. -/
def asciiToUpper (c : Char) : Char :=
  if 0x61 ≤ c.toNat ∧ c.toNat ≤ 0x7a then Char.ofNat (c.toNat - 0x20) else c

/-- The 0x60 backquote character, the US-layout key under `ё`. -/
def backquoteChar : Char := Char.ofNat 0x60

/-- The 0x27 single-quote character, the US-layout key under `э`. -/
def quoteChar : Char := Char.ofNat 0x27

/-- The 0x22 double-quote character, a Russian-layout shifted digit key. -/
def dquoteChar : Char := Char.ofNat 0x22

/-- The `letterMap` object of `translateRuToEnWithPunctuation`, in source
order: lowercase Cyrillic letter → lowercase US-layout character. -/
def letterPairs : List (Char × Char) :=
  [('ё', backquoteChar),
   ('й', 'q'), ('ц', 'w'), ('у', 'e'), ('к', 'r'), ('е', 't'), ('н', 'y'),
   ('г', 'u'), ('ш', 'i'), ('щ', 'o'), ('з', 'p'),
   ('х', '['), ('ъ', ']'),
   ('ф', 'a'), ('ы', 's'), ('в', 'd'), ('а', 'f'), ('п', 'g'), ('р', 'h'),
   ('о', 'j'), ('л', 'k'), ('д', 'l'), ('ж', ';'), ('э', quoteChar),
   ('я', 'z'), ('ч', 'x'), ('с', 'c'), ('м', 'v'), ('и', 'b'), ('т', 'n'),
   ('ь', 'm'), ('б', ','), ('ю', '.')]

/-- `letterMap[k]` as an option (the JavaScript truthiness test
`if (letterMap[lower])` succeeds exactly when the key is present, since
every value is a non-empty string). -/
def letterMap (c : Char) : Option Char := letterPairs.lookup c

/-- The `punctuationMap` object of `translateRuToEnWithPunctuation`, in
source order. -/
def punctuationPairs : List (Char × Char) :=
  [(dquoteChar, '@'), ('№', '#'), (';', '$'), (':', '^'), ('?', '&'),
   ('Ё', '~'), ('/', '|'), ('.', '/'), (',', '?')]

/-- `punctuationMap[ch]` as an option. -/
def punctuationMap (c : Char) : Option Char := punctuationPairs.lookup c

/-- The per-character body of the `.map` in
`translateRuToEnWithPunctuation`: lowercase the character; on a letter-map
hit return the mapped character, upper-cased when the original was not
already lowercase; otherwise try the punctuation map; otherwise pass the
character through. -/
def translateChar (ch : Char) : Char :=
  let lower := jsToLower ch
  match letterMap lower with
  | some translated => if ch = lower then translated else jsToUpper translated
  | none =>
    match punctuationMap ch with
    | some p => p
    | none => ch

/-- `translateRuToEnWithPunctuation`: map every code point of the input
through `translateChar` and join the results. -/
def translateRuToEnWithPunctuation (value : String) : String :=
  ⟨value.data.map translateChar⟩

/-- The Russian-mode per-character test of `isValidForLanguage`:
Cyrillic uppercase range, Cyrillic lowercase range, Ё, ё, or printable
ASCII that is not a Latin letter. -/
def ruCharOk (ch : Char) : Bool :=
  let code := ch.toNat
  (0x0410 ≤ code && code ≤ 0x042f) ||
  (0x0430 ≤ code && code ≤ 0x044f) ||
  code == 0x0401 ||
  code == 0x0451 ||
  (0x20 ≤ code && code ≤ 0x7e &&
    !(0x41 ≤ code && code ≤ 0x5a) && !(0x61 ≤ code && code ≤ 0x7a))

/-- `isValidForLanguage`: every code point of the string must pass the
language's per-character test (Russian: `ruCharOk`; any other language:
plain ASCII, code point ≤ 0x7F).  The source loop returns `false` at the
first offending character, which `List.all` reproduces. -/
def isValidForLanguage (value : String) (lang : String) : Bool :=
  let isRussian := lang == "ru"
  value.data.all fun ch =>
    if isRussian then ruCharOk ch else ch.toNat ≤ 0x7f

/-- The local state of the `Paste` component: the six `useState` cells
`inputValue`, `language`, `status` (`""` or `"error"`), `isLoading`,
`errMsg` and `isModalOpen`. -/
structure DialogState where
  inputValue : String
  language : String
  status : String
  isLoading : Bool
  errMsg : String
  isModalOpen : Bool
deriving DecidableEq

/-- The outcome of the promise returned by the external `paste` call:
either fulfilled with a response carrying a status `code` and a `msg`,
or rejected (transport failure). -/
inductive PasteOutcome where
  | fulfilled (code : Int) (msg : String)
  | rejected
deriving DecidableEq

/-- The `submit` handler, run to completion for a given outcome of the
`paste` promise (the UI event loop is single-threaded, so the guard test,
the `.then` handler and the `.finally` handler are the whole story of one
submission).  Returns the text handed to `paste` (`none` when the guard
returns early and no call is made) together with the state after the
submission completes. -/
def submit (s : DialogState) (outcome : PasteOutcome) : Option String × DialogState :=
  if s.isLoading || s.inputValue == "" then (none, s)
  else
    let loading : DialogState := { s with isLoading := true }
    let textToSend :=
      if s.language == "ru" then translateRuToEnWithPunctuation s.inputValue
      else s.inputValue
    let afterThen : DialogState :=
      match outcome with
      | .fulfilled code msg =>
        if code ≠ 0 then { loading with errMsg := msg }
        else { loading with
                 inputValue := "", status := "", errMsg := "", isModalOpen := false }
      | .rejected => loading
    (some textToSend, { afterThen with isLoading := false })

/-- A key/value pair found by `List.lookup` is a member of the
association list. -/
theorem lookup_mem :
    ∀ {l : List (Char × Char)} {c m : Char}, l.lookup c = some m → (c, m) ∈ l := by
  intro l
  induction l with
  | nil => intro c m h; simp [List.lookup] at h
  | cons p t ih =>
    intro c m h
    rcases p with ⟨k, v⟩
    rw [List.lookup] at h
    by_cases hck : c = k
    · subst hck
      simp at h
      simp [h]
    · have hbeq : (c == k) = false := beq_eq_false_iff_ne.mpr hck
      rw [hbeq] at h
      exact List.mem_cons_of_mem _ (ih h)

/-- C1: `isValidForLanguage s "ru"` is true iff every character of `s`
lies in the Cyrillic uppercase range 0x0410–0x042F, the Cyrillic
lowercase range 0x0430–0x044F, is Ё (0x0401) or ё (0x0451), or lies in
printable ASCII 0x20–0x7E without being a Latin letter; in particular
`"привет"` is valid for Russian and `"hello"` is not. -/
theorem isValidForLanguage_ru_spec (s : String) :
    (isValidForLanguage s "ru" = true ↔
      ∀ c ∈ s.data,
        (0x0410 ≤ c.toNat ∧ c.toNat ≤ 0x042f) ∨
        (0x0430 ≤ c.toNat ∧ c.toNat ≤ 0x044f) ∨
        c.toNat = 0x0401 ∨ c.toNat = 0x0451 ∨
        (0x20 ≤ c.toNat ∧ c.toNat ≤ 0x7e ∧
          ¬(0x41 ≤ c.toNat ∧ c.toNat ≤ 0x5a) ∧
          ¬(0x61 ≤ c.toNat ∧ c.toNat ≤ 0x7a))) ∧
    isValidForLanguage "привет" "ru" = true ∧
    isValidForLanguage "hello" "ru" = false := by
  refine ⟨?_, by decide, by decide⟩
  rw [isValidForLanguage]
  simp only [beq_self_eq_true, if_pos, List.all_eq_true]
  constructor <;> intro h c hc <;> have hcc := h c hc <;>
    simp only [ruCharOk, Bool.or_eq_true, Bool.and_eq_true, Bool.not_eq_true',
      Bool.and_eq_false_eq_eq_false_or_eq_false,
      decide_eq_true_eq, decide_eq_false_iff_not, beq_iff_eq] at hcc ⊢ <;> omega

/-- C2: for any language other than `"ru"`, `isValidForLanguage` accepts
a string iff every character's code point is ≤ 0x7F, and the empty
string is valid for every language (including `"ru"`). -/
theorem isValidForLanguage_default_spec (s lang : String) (h : lang ≠ "ru") :
    (isValidForLanguage s lang = true ↔ ∀ c ∈ s.data, c.toNat ≤ 0x7f) ∧
    isValidForLanguage "" lang = true ∧
    isValidForLanguage "" "ru" = true ∧
    isValidForLanguage "hello world" "en" = true ∧
    isValidForLanguage "привет" "en" = false := by
  have hbeq : (lang == "ru") = false := beq_eq_false_iff_ne.mpr h
  refine ⟨?_, ?_, by decide, by decide, by decide⟩
  · rw [isValidForLanguage]
    simp only [hbeq, if_neg, Bool.false_eq_true, if_false, List.all_eq_true,
      decide_eq_true_eq]
  · rw [isValidForLanguage]
    simp [String.data]

theorem isValidForLanguage_default_spec_witness :
    ("en" : String) ≠ "ru" ∧
    ((isValidForLanguage "hi!" "en" = true ↔
        ∀ c ∈ ("hi!" : String).data, c.toNat ≤ 0x7f) ∧
     isValidForLanguage "" "en" = true ∧
     isValidForLanguage "" "ru" = true ∧
     isValidForLanguage "hello world" "en" = true ∧
     isValidForLanguage "привет" "en" = false) :=
  ⟨by decide, isValidForLanguage_default_spec "hi!" "en" (by decide)⟩

/-- C3: the translator processes characters independently: lowercase the
character; on a letter-map hit output the mapped character,
ASCII-uppercased when the original differed from its lowercase form;
otherwise consult the punctuation map on the original character;
otherwise pass the character through.  Consequently, for every key `c`
of the letter map with image `m`, translating the uppercase of `c`
yields the ASCII uppercase of `m`, and
`translateRuToEnWithPunctuation "Привет, мир!" = "Ghbdtn? vbh!"`. -/
theorem translateRuToEn_char_spec (s : String) (c m : Char) (hm : letterMap c = some m) :
    (translateRuToEnWithPunctuation s).data = s.data.map (fun ch =>
      match letterMap (jsToLower ch) with
      | some t => if ch = jsToLower ch then t else asciiToUpper t
      | none =>
        match punctuationMap ch with
        | some p => p
        | none => ch) ∧
    translateRuToEnWithPunctuation (String.mk [jsToUpper c]) = String.mk [asciiToUpper m] ∧
    translateRuToEnWithPunctuation "Привет, мир!" = "Ghbdtn? vbh!" := by
  have hascii : ∀ p ∈ letterPairs, jsToUpper p.2 = asciiToUpper p.2 := by decide
  have hchar : ∀ ch, translateChar ch =
      (match letterMap (jsToLower ch) with
       | some t => if ch = jsToLower ch then t else asciiToUpper t
       | none =>
         match punctuationMap ch with
         | some p => p
         | none => ch) := by
    intro ch
    unfold translateChar
    cases hl : letterMap (jsToLower ch) with
    | none => simp [hl]
    | some t =>
      have ht := hascii _ (lookup_mem hl)
      simp [hl, ht]
  have hup : ∀ p ∈ letterPairs, translateChar (jsToUpper p.1) = asciiToUpper p.2 := by decide
  refine ⟨?_, ?_, by decide⟩
  · show s.data.map translateChar = _
    exact congrArg (fun g => List.map g s.data) (funext hchar)
  · show String.mk [translateChar (jsToUpper c)] = _
    rw [hup _ (lookup_mem hm)]

theorem translateRuToEn_char_spec_witness :
    letterMap 'й' = some 'q' ∧
    (translateRuToEnWithPunctuation (String.mk [jsToUpper 'й']) =
       String.mk [asciiToUpper 'q'] ∧
     translateRuToEnWithPunctuation "Привет, мир!" = "Ghbdtn? vbh!") :=
  ⟨by decide, (translateRuToEn_char_spec "" 'й' 'q' (by decide)).2⟩

/-- C4: the translator is a total function and preserves the number of
Unicode code points of its input. -/
theorem translateRuToEn_total_length (s : String) :
    (translateRuToEnWithPunctuation s).length = s.length := by
  show (s.data.map translateChar).length = s.data.length
  simp

/-- C5: when a submission actually runs, a response with status code 0
clears the input text, the validity status and the error message and
closes the modal; a non-zero code sets the error message to the
response's message and leaves everything else (input text, modal)
unchanged. -/
theorem submit_response_spec (s : DialogState) (code : Int) (msg : String)
    (hl : s.isLoading = false) (hv : s.inputValue ≠ "") :
    (code = 0 →
      (submit s (.fulfilled code msg)).2 =
        { s with inputValue := "", status := "", errMsg := "", isModalOpen := false,
                 isLoading := false }) ∧
    (code ≠ 0 →
      (submit s (.fulfilled code msg)).2 = { s with errMsg := msg, isLoading := false }) := by
  have hbeq : (s.inputValue == "") = false := beq_eq_false_iff_ne.mpr hv
  constructor <;> intro hc <;> simp [submit, hl, hbeq, hc]

theorem submit_response_spec_witness :
    (submit ⟨"привет", "ru", "", false, "", true⟩ (.fulfilled 1 "oops")).2 =
      ⟨"привет", "ru", "", false, "oops", true⟩ :=
  (submit_response_spec ⟨"привет", "ru", "", false, "", true⟩ 1 "oops" rfl
    (by decide)).2 (by decide)

/-- C6: when a submission actually runs, the text handed to the paste
operation is the translator's image of the input when the selected
language is `"ru"`, and the raw input for any other language. -/
theorem submit_sends_translated (s : DialogState) (o : PasteOutcome)
    (hl : s.isLoading = false) (hv : s.inputValue ≠ "") :
    (s.language = "ru" →
      (submit s o).1 = some (translateRuToEnWithPunctuation s.inputValue)) ∧
    (s.language ≠ "ru" → (submit s o).1 = some s.inputValue) := by
  have hbeq : (s.inputValue == "") = false := beq_eq_false_iff_ne.mpr hv
  constructor <;> intro hlang
  · simp [submit, hl, hbeq, hlang]
  · have hlb : (s.language == "ru") = false := beq_eq_false_iff_ne.mpr hlang
    simp [submit, hl, hbeq, hlb]

theorem submit_sends_translated_witness :
    (submit ⟨"привет", "ru", "", false, "", true⟩ .rejected).1 = some "ghbdtn" :=
  (submit_sends_translated ⟨"привет", "ru", "", false, "", true⟩ .rejected rfl
    (by decide)).1 rfl

/-- C7: while a submission is in flight or the input text is empty,
`submit` makes no paste call and leaves every piece of dialog state
unchanged. -/
theorem submit_guard_noop (s : DialogState) (o : PasteOutcome)
    (h : s.isLoading = true ∨ s.inputValue = "") :
    (submit s o).1 = none ∧ (submit s o).2 = s := by
  have hg : (s.isLoading || s.inputValue == "") = true := by
    rcases h with h | h <;> simp [h]
  simp [submit, hg]

theorem submit_guard_noop_witness :
    (submit ⟨"", "en", "", false, "", true⟩ .rejected).1 = none ∧
    (submit ⟨"", "en", "", false, "", true⟩ .rejected).2 =
      ⟨"", "en", "", false, "", true⟩ :=
  submit_guard_noop ⟨"", "en", "", false, "", true⟩ .rejected (Or.inr rfl)

/-- C8: the letter map has exactly 33 entries, its keys are pairwise
distinct, its values are pairwise distinct (so it is a bijection onto
its image), and consequently no two distinct Cyrillic letters look up to
the same US-layout character. -/
theorem letterMap_bijection :
    letterPairs.length = 33 ∧
    (letterPairs.map Prod.fst).Nodup ∧
    (letterPairs.map Prod.snd).Nodup ∧
    ∀ c₁ c₂ m, letterMap c₁ = some m → letterMap c₂ = some m → c₁ = c₂ := by
  refine ⟨by decide, by decide, by decide, ?_⟩
  have hpq : ∀ p ∈ letterPairs, ∀ q ∈ letterPairs, p.2 = q.2 → p.1 = q.1 := by decide
  intro c₁ c₂ m h1 h2
  exact hpq _ (lookup_mem h1) _ (lookup_mem h2) rfl

/-- C9: whatever the outcome of the paste promise — fulfilled with any
status code, or rejected — a submission that runs ends with the loading
flag cleared. -/
theorem submit_clears_loading (s : DialogState) (o : PasteOutcome)
    (hl : s.isLoading = false) (hv : s.inputValue ≠ "") :
    (submit s o).2.isLoading = false := by
  have hbeq : (s.inputValue == "") = false := beq_eq_false_iff_ne.mpr hv
  cases o <;> simp [submit, hl, hbeq]

theorem submit_clears_loading_witness :
    (submit ⟨"hi", "en", "", false, "", true⟩ .rejected).2.isLoading = false :=
  submit_clears_loading ⟨"hi", "en", "", false, "", true⟩ .rejected rfl (by decide)

/-- C10: every occurrence of `Ё` in the input translates to the 0x60
backquote character, never to `~`, although the punctuation map carries
the entry `Ё → ~` (the letter-map branch on the lowercase form `ё` wins,
so that entry is unreachable); and for the seven letters whose letter-map
image is a non-letter, the uppercase and lowercase forms translate to the
same output character, so the translator is not injective
(`"Ж"` and `"ж"` both translate to `";"`). -/
theorem yo_punctuation_unreachable (s : String) (i : Nat)
    (h : s.data[i]? = some 'Ё') :
    (translateRuToEnWithPunctuation s).data[i]? = some backquoteChar ∧
    (translateRuToEnWithPunctuation s).data[i]? ≠ some '~' ∧
    punctuationMap 'Ё' = some '~' ∧
    (∀ c ∈ ['ё', 'х', 'ъ', 'ж', 'э', 'б', 'ю'],
      translateChar (jsToUpper c) = translateChar c) ∧
    translateRuToEnWithPunctuation "Ж" = ";" ∧
    translateRuToEnWithPunctuation "ж" = ";" ∧
    ("Ж" : String) ≠ "ж" := by
  have h1 : (translateRuToEnWithPunctuation s).data[i]? = some backquoteChar := by
    show (s.data.map translateChar)[i]? = some backquoteChar
    rw [List.getElem?_map, h]
    decide
  refine ⟨h1, ?_, by decide, by decide, by decide, by decide, by decide⟩
  rw [h1]
  decide

theorem yo_punctuation_unreachable_witness :
    ("Ё" : String).data[0]? = some 'Ё' ∧
    ((translateRuToEnWithPunctuation "Ё").data[0]? = some backquoteChar ∧
     (translateRuToEnWithPunctuation "Ё").data[0]? ≠ some '~' ∧
     punctuationMap 'Ё' = some '~' ∧
     (∀ c ∈ ['ё', 'х', 'ъ', 'ж', 'э', 'б', 'ю'],
       translateChar (jsToUpper c) = translateChar c) ∧
     translateRuToEnWithPunctuation "Ж" = ";" ∧
     translateRuToEnWithPunctuation "ж" = ";" ∧
     ("Ж" : String) ≠ "ж") :=
  ⟨by decide, yo_punctuation_unreachable "Ё" 0 (by decide)⟩

end Paste
